import Mathlib

/-!
Verification of `getdata_alta.py` (ALTA data transfer script).

The development shallowly embeds the script's pure logic:
  * `parse_list`  — the range/list parser (`RangeSpecification.parse`),
  * `get_alta_dir` — the archive-location resolution policy (`PathResolver.resolve`),
  * `get_alta_dir_run` — the same resolution including the staged-tier
    existence probe (`subprocess.call` of `ils`) and its effect trace,
  * `getdata_alta` — the transfer orchestrator, modelled as the list of
    external-effect operations it performs.

Python strings are modelled as Lean `String`/`List Char`; Python `int`s that
are known non-negative (dates, task ids, beams) as `Nat`; process exit codes
as `Int`; fallible code as `Except`/`Option`.
-/

namespace GetdataAlta

/-! ### Decimal rendering (Python `str(n)`, `'%.2d'`, `'%.3d'`) -/

/-- Least-significant-first decimal digits of `n`, with explicit fuel so the
definition is structural (kernel-reducible). -/
def decDigitsAux : Nat → Nat → List Nat
  | 0, _ => []
  | fuel + 1, n => if n = 0 then [] else n % 10 :: decDigitsAux fuel (n / 10)

/-- Least-significant-first decimal digits of `n` (`[]` for `0`). -/
def decDigits (n : Nat) : List Nat := decDigitsAux n n

/-- The ASCII character of a decimal digit. -/
def digitChar (d : Nat) : Char := Char.ofNat (48 + d)

/-- The decimal representation of `n`, as Python `str(n)` renders a
non-negative int (most significant digit first, `"0"` for zero). -/
def decReprL (n : Nat) : List Char :=
  if n = 0 then ['0'] else ((decDigits n).map digitChar).reverse

/-- Zero-pad a digit string on the left to width `w`
(Python `'%.<w>d'` on a non-negative int). -/
def padZerosL (w : Nat) (l : List Char) : List Char :=
  List.replicate (w - l.length) '0' ++ l

/-- Python `'{:02d}'.format(n)` / `'%.2d' % n` for `n : Nat`, as a char list. -/
def fmt2L (n : Nat) : List Char := padZerosL 2 (decReprL n)

/-- Python `'{:03d}'.format(n)` / `'%.3d' % n` for `n : Nat`, as a char list. -/
def fmt3L (n : Nat) : List Char := padZerosL 3 (decReprL n)

/-- Python `str(n)` for a non-negative int, as a `String`. -/
def decRepr (n : Nat) : String := ⟨decReprL n⟩

/-- Python `'{:02d}'.format(n)` as a `String`. -/
def fmt2 (n : Nat) : String := ⟨fmt2L n⟩

/-- Python `'{:03d}'.format(n)` as a `String`. -/
def fmt3 (n : Nat) : String := ⟨fmt3L n⟩

/-! ### Python `int()` on digit strings, string order, `str.split` -/

/-- Numeric value of a decimal digit string (most significant first). -/
def strToNatCore (l : List Char) : Nat :=
  l.foldl (fun a c => a * 10 + (c.toNat - 48)) 0

/-- Python `int(s)` restricted to the inputs the script feeds it: a non-empty
string of decimal digits (possibly zero-padded) parses to its value; anything
else fails (Python raises `ValueError`). Sign/whitespace forms do not occur
in the script's inputs and are modelled as failures. -/
def pyInt (l : List Char) : Option Nat :=
  if !l.isEmpty && l.all Char.isDigit then some (strToNatCore l) else none

/-- Python string comparison `s < t`: lexicographic on code points. -/
def strLt : List Char → List Char → Bool
  | [], [] => false
  | [], _ :: _ => true
  | _ :: _, [] => false
  | a :: as, b :: bs => if a < b then true else if b < a then false else strLt as bs

/-- Python `s.split(sep)` for a one-character separator: splits at every
occurrence, keeping empty pieces (`"".split(",") == [""]`). -/
def pySplit (sep : Char) : List Char → List (List Char)
  | [] => [[]]
  | c :: rest =>
    if c = sep then [] :: pySplit sep rest
    else
      match pySplit sep rest with
      | [] => [[c]]
      | p :: ps => (c :: p) :: ps

/-! ### `parse_list` (RangeSpecification.parse) -/

/-- Errors of `parse_list`: the dedicated "end should not be smaller than
begin" `ValueError` (`invalidRange`), and every other `ValueError`
(failed `int()` conversion or tuple-unpack mismatch, `parseFail`). -/
inductive RangeError
  | invalidRange (tok : String)
  | parseFail (tok : String)
deriving DecidableEq

/-- The integers contributed by one comma-separated token of the
specification string, following the source:

```
if "-" in spec_part:
    begin, end = spec_part.split("-")
    if end < begin:
        raise ValueError("In specification %s, end should not be smaller than begin" % spec_part)
    ret_list += range(int(begin), int(end) + 1)
else:
    ret_list += [int(spec_part)]
```

Note the `end < begin` test compares the *strings*. -/
def tokenVals (t : List Char) : Except RangeError (List Nat) :=
  if '-' ∈ t then
    match pySplit '-' t with
    | [b, e] =>
      if strLt e b then .error (.invalidRange ⟨t⟩)
      else
        match pyInt b, pyInt e with
        | some bn, some en => .ok (List.range' bn (en + 1 - bn))
        | _, _ => .error (.parseFail ⟨t⟩)
    | _ => .error (.parseFail ⟨t⟩)
  else
    match pyInt t with
    | some n => .ok [n]
    | none => .error (.parseFail ⟨t⟩)

/-- The accumulation loop of `parse_list` over the comma-split tokens;
the first failing token aborts the whole parse. -/
def parseGo : List (List Char) → Except RangeError (List Nat)
  | [] => .ok []
  | t :: ts =>
    match tokenVals t with
    | .error e => .error e
    | .ok l =>
      match parseGo ts with
      | .error e => .error e
      | .ok rest => .ok (l ++ rest)

/-- `parse_list(spec)`: convert `"00-04,07,09-12"` into `[0,1,2,3,4,7,9,10,11,12]`. -/
def parse_list (spec : String) : Except RangeError (List Nat) :=
  parseGo (pySplit ',' spec.data)

/-- Spec-side token well-formedness, following the contract's words rather
than the code: a token is a bare non-negative integer, or a hyphenated
begin-end pair of non-negative integers — here strengthened with the
amendment that the end is not smaller than the begin under Python *string*
comparison, which is the precondition the code actually enforces. -/
def specTok (t : List Char) : Bool :=
  match pySplit '-' t with
  | [s] => (pyInt s).isSome
  | [b, e] => (pyInt b).isSome && (pyInt e).isSome && !(strLt e b)
  | _ => false

/-- Spec-side expansion of one token, following the contract's words: a bare
integer contributes a singleton, a begin-end pair contributes the inclusive
integer sequence from begin to end (empty when the numeric end is below the
numeric begin). -/
def specExpand (t : List Char) : List Nat :=
  match pySplit '-' t with
  | [s] => [(pyInt s).getD 0]
  | [b, e] =>
    List.range' ((pyInt b).getD 0) ((pyInt e).getD 0 + 1 - (pyInt b).getD 0)
  | _ => []

/-! ### Archive path forms

Each definition reproduces one of the format strings of `get_alta_dir`,
grouped as `root ++ (variable middle ++ suffix)` so that the fixed tier root
is the first append operand and the fixed `.MS` / `.MS.tar` suffix the last.
-/

/-- `"/altaZone/home/apertif_main/wcudata/WSRTA{date}{task_id:02d}/WSRTA{date}{task_id:02d}_B{beam_nr:03d}.MS"` -/
def path2 (date task_id beam_nr : Nat) : String :=
  "/altaZone/home/apertif_main/wcudata/WSRTA" ++
    ((decRepr date ++ fmt2 task_id ++ "/WSRTA" ++ decRepr date ++ fmt2 task_id ++
      "_B" ++ fmt3 beam_nr) ++ ".MS")

/-- `"/altaZone/home/apertif_main/wcudata/WSRTA{date}{task_id:03d}/WSRTA{date}{task_id:03d}_B{beam_nr:03d}.MS"` -/
def path3 (date task_id beam_nr : Nat) : String :=
  "/altaZone/home/apertif_main/wcudata/WSRTA" ++
    ((decRepr date ++ fmt3 task_id ++ "/WSRTA" ++ decRepr date ++ fmt3 task_id ++
      "_B" ++ fmt3 beam_nr) ++ ".MS")

/-- `"/altaZone/ingest/apertif_main/visibilities_default/{date}{task_id:03d}/WSRTA{date}{task_id:03d}_B{beam_nr:03d}.MS"` -/
def ingestPath (date task_id beam_nr : Nat) : String :=
  "/altaZone/ingest/apertif_main/visibilities_default/" ++
    ((decRepr date ++ fmt3 task_id ++ "/WSRTA" ++ decRepr date ++ fmt3 task_id ++
      "_B" ++ fmt3 beam_nr) ++ ".MS")

/-- `"/altaZone/stage/apertif_main/visibilities_default/{date}{task_id:03d}/WSRTA{date}{task_id:03d}_B{beam_nr:03d}.MS.tar"` -/
def stagedTarPath (date task_id beam_nr : Nat) : String :=
  "/altaZone/stage/apertif_main/visibilities_default/" ++
    ((decRepr date ++ fmt3 task_id ++ "/WSRTA" ++ decRepr date ++ fmt3 task_id ++
      "_B" ++ fmt3 beam_nr) ++ ".MS.tar")

/-- `"/altaZone/archive/apertif_main/visibilities_default/{date}{task_id:03d}/WSRTA{date}{task_id:03d}_B{beam_nr:03d}.MS"` -/
def archivePath (date task_id beam_nr : Nat) : String :=
  "/altaZone/archive/apertif_main/visibilities_default/" ++
    ((decRepr date ++ fmt3 task_id ++ "/WSRTA" ++ decRepr date ++ fmt3 task_id ++
      "_B" ++ fmt3 beam_nr) ++ ".MS")

/-! ### The resolution policy (`get_alta_dir`) -/

/-- The branch chain of `get_alta_dir` (source lines 79-88), given the exit
code `testcold` that `subprocess.call("ils <staged tarball path>")` returned:

```
if int(date) < 180216:
    return ".../wcudata/WSRTA{date}{task_id:02d}/....MS"
elif int(date) < 181003 or alta_exception:
    return ".../wcudata/WSRTA{date}{task_id:03d}/....MS"
elif int(str(date)+'%.3d' % task_id) == 190326001:
    return "/altaZone/ingest/.../....MS"
elif testcold == 0:
    return "/altaZone/stage/.../....MS.tar"
else:
    return "/altaZone/archive/.../....MS"
```
-/
def get_alta_dir (date task_id beam_nr : Nat) (alta_exception : Bool)
    (testcold : Int) : String :=
  if date < 180216 then path2 date task_id beam_nr
  else if date < 181003 ∨ alta_exception = true then path3 date task_id beam_nr
  else if pyInt (decReprL date ++ fmt3L task_id) = some 190326001 then
    ingestPath date task_id beam_nr
  else if testcold = 0 then stagedTarPath date task_id beam_nr
  else archivePath date task_id beam_nr

/-- The observable behaviour of `subprocess.call("ils <path>")` for each
path: `some rc` when the `ils` process ran and exited with status `rc`
(status `0` meaning the path exists; any nonzero status covers both "object
not found" and errors such as an unreachable archive server, which `ils`
also reports through a nonzero exit status), and `none` when the process
could not be launched at all (Python raises `OSError`). -/
structure IlsWorld where
  retcode : String → Option Int

/-- The one way `get_alta_dir` itself can fail: the exception raised by
`subprocess.call` when the probe process cannot be launched. -/
inductive PyErr
  | osError
deriving DecidableEq

/-- `get_alta_dir` including its staged-tier existence probe (source lines
74-77): the staged tarball candidate path is synthesized and probed via
`subprocess.call` before any branching, then the branch chain runs on the
exit code. Returns the resolution outcome together with the list of paths
probed during the call. -/
def get_alta_dir_run (w : IlsWorld) (date task_id beam_nr : Nat)
    (alta_exception : Bool) : Except PyErr String × List String :=
  let altadir := stagedTarPath date task_id beam_nr
  match w.retcode altadir with
  | none => (.error .osError, [altadir])
  | some rc => (.ok (get_alta_dir date task_id beam_nr alta_exception rc), [altadir])

/-! ### Kind of a resolved location -/

/-- Python `s[-n:]` (the whole string when it is shorter than `n`). -/
def takeRightS (n : Nat) (s : String) : String :=
  ⟨s.data.drop (s.data.length - n)⟩

/-- The tier kind the orchestrator reads off a resolved path, by the same
suffix dispatch it uses (source lines 153 and 160):
`alta_dir[-2:] == 'MS'` → a directory, else `alta_dir[-3:] == 'tar'` →
a tarball. -/
inductive MsKind
  | Directory
  | Tarball
  | Neither
deriving DecidableEq

/-- Kind dispatch on a resolved path, as the orchestrator performs it. -/
def pathKind (p : String) : MsKind :=
  if takeRightS 2 p = "MS" then .Directory
  else if takeRightS 3 p = "tar" then .Tarball
  else .Neither

/-- Whether a path is an ingest-tier path, read off its fixed tier root. -/
def startsWithL : List Char → List Char → Bool
  | [], _ => true
  | _ :: _, [] => false
  | a :: as, b :: bs => a == b && startsWithL as bs

/-- A path lies in the ingest tier exactly when it is under the ingest root. -/
def isIngestPath (p : String) : Bool :=
  startsWithL "/altaZone/ingest/".data p.data

/-! ### The transfer orchestrator (`getdata_alta`)

The orchestrator is modelled by the sequence of external-effect operations it
performs (process invocations and filesystem calls), with the staged-tier
probe inside each `get_alta_dir` call answered by an oracle
`ils : String → Int` giving the exit code of `subprocess.call("ils <path>")`.
Logging and timing calls have no effect the spec tracks and are omitted.
-/

/-- Python `s[:-1]`. -/
def pyDropLast (s : String) : String := ⟨s.data.dropLast⟩

/-- Python `s.rstrip('/')` on a char list. -/
def rstripSlash (l : List Char) : List Char :=
  (l.reverse.dropWhile (fun c => c == '/')).reverse

/-- Python `os.path.split(p)`: split at the final slash; the head keeps no
trailing slashes unless it consists only of slashes. -/
def ospSplit (p : String) : String × String :=
  let l := p.data
  let i := l.length - (l.reverse.takeWhile (fun c => !(c == '/'))).length
  let head := l.take i
  let tail := l.drop i
  let head := if head ≠ [] ∧ head.any (fun c => !(c == '/')) then rstripSlash head else head
  (⟨head⟩, ⟨tail⟩)

/-- Python `os.path.join(a, b)` for the shapes the script produces
(`b` never starts with a slash in the script, but the absolute-`b` case is
kept for fidelity). -/
def ospJoin (a b : String) : String :=
  if b.data.head? = some '/' then b
  else if a = "" ∨ a.data.getLast? = some '/' then a ++ b
  else a ++ "/" ++ b

/-- `'WSRTA{date}{task_id:03d}_B{beam_nr:03d}.MS'` — the canonical name of
the directory a tarball extracts to. -/
def canonicalMS (date task_id beam_nr : Nat) : String :=
  "WSRTA" ++ decRepr date ++ fmt3 task_id ++ "_B" ++ fmt3 beam_nr ++ ".MS"

/-- The external-effect operations of one `getdata_alta` run:
  * `iget src dest` — the `iget -rfPIT ... --retries 5 {src} {dest}` bulk copy
    (checkpoint-file arguments derived from `tmpdir` and the key elided),
  * `untar tarPath cDir` — `tar -xf {tarPath} -C {cDir}`,
  * `rename src dst` — `os.rename(src, dst)`,
  * `remove p` — `os.remove(p)`,
  * `rmCheckpoints tmpdir` — `rm -rf {tmpdir}*irods-status`,
  * `irsync remote localDir log` — `irsync -srl i:{remote} {localDir} >> {log}`,
  * `hostname` — the `hostname` shell-out,
  * `grepCount log` — `grep N {log} | wc -l`. -/
inductive Op
  | iget (src dest : String)
  | untar (tarPath cDir : String)
  | rename (src dst : String)
  | remove (p : String)
  | rmCheckpoints (tmpdir : String)
  | irsync (remote localDir log : String)
  | hostname
  | grepCount (log : String)
deriving DecidableEq

/-- One iteration of the transfer loop body (source lines 152-181) for a
given `(task_id, beam_nr)`: resolve, then dispatch on the path suffix.
Returns the new value of the `targetdir` variable (the `elif` branch mutates
it with `targetdir = targetdir[:-1]`) together with the operations
performed. -/
def processItem (ils : String → Int) (date : Nat) (alta_exception : Bool)
    (targetdir : String) (task_id beam_nr : Nat) : String × List Op :=
  let alta_dir := get_alta_dir date task_id beam_nr alta_exception
    (ils (stagedTarPath date task_id beam_nr))
  if takeRightS 2 alta_dir = "MS" then
    (targetdir, [Op.iget alta_dir targetdir])
  else if takeRightS 3 alta_dir = "tar" then
    let targetdir := pyDropLast targetdir
    let tarP := targetdir ++ ".tar"
    let head := (ospSplit targetdir).1
    (targetdir,
      [Op.iget alta_dir tarP,
       Op.untar tarP head,
       Op.rename (ospJoin head (canonicalMS date task_id beam_nr)) targetdir,
       Op.remove tarP])
  else (targetdir, [])

/-- Inner loop `for task_id in task_ids`, threading the mutable `targetdir`. -/
def taskLoop (ils : String → Int) (date : Nat) (alta_exception : Bool)
    (beam_nr : Nat) : List Nat → String → String × List Op
  | [], targetdir => (targetdir, [])
  | t :: ts, targetdir =>
    let r1 := processItem ils date alta_exception targetdir t beam_nr
    let r2 := taskLoop ils date alta_exception beam_nr ts r1.1
    (r2.1, r1.2 ++ r2.2)

/-- Outer loop `for beam_nr in beams`. -/
def beamLoop (ils : String → Int) (date : Nat) (alta_exception : Bool)
    (task_ids : List Nat) : List Nat → String → String × List Op
  | [], targetdir => (targetdir, [])
  | b :: bs, targetdir =>
    let r1 := taskLoop ils date alta_exception b task_ids targetdir
    let r2 := beamLoop ils date alta_exception task_ids bs r1.1
    (r2.1, r1.2 ++ r2.2)

/-- The per-task verification log path
`"{tmpdir}transfer_WSRTA{date}{task_id:03d}_to_alta_verify.log"`. -/
def verifyLogPath (tmpdir : String) (date task_id : Nat) : String :=
  tmpdir ++ "transfer_WSRTA" ++ decRepr date ++ fmt3 task_id ++ "_to_alta_verify.log"

/-- The `local_dir` of the verification loop (source lines 196-199). When
`targetdir == '.'` the source assigns a *literal* string whose placeholders
are never interpolated; that literal is reproduced byte for byte. -/
def localDirStr (targetdir : String) : String :=
  if targetdir = "." then
    "\x7btargetdir\x7dWSRTA\x7bdate\x7d\x7btask_id:03d\x7d_B\x7bbeam_nr:03d\x7d.MS"
  else targetdir

/-- The `check_with_rsync` verification pass (source lines 187-218):
one `irsync` per `(beam, task)` pair — each re-resolving the location and
hence re-probing — then the `hostname` shell-out, then one failed-file count
per task id. -/
def verifyOps (ils : String → Int) (date : Nat) (alta_exception : Bool)
    (tmpdir targetdir : String) (beams task_ids : List Nat) : List Op :=
  (beams.flatMap fun b => task_ids.map fun t =>
      Op.irsync
        (get_alta_dir date t b alta_exception (ils (stagedTarPath date t b)))
        (localDirStr targetdir) (verifyLogPath tmpdir date t))
    ++ [Op.hostname]
    ++ task_ids.map fun t => Op.grepCount (verifyLogPath tmpdir date t)

/-- A `task_ids`/`beams` argument of `getdata_alta`: the Python signature
accepts either a single int or a list of ints. -/
inductive IntOrList
  | int (n : Nat)
  | list (l : List Nat)

/-- The `isinstance(x, int)` normalization at the top of `getdata_alta`:
a single int becomes the singleton list. -/
def IntOrList.toList : IntOrList → List Nat
  | .int n => [n]
  | .list l => l

/-- `getdata_alta(date, task_ids, beams, targetdir, tmpdir, alta_exception,
check_with_rsync)`, modelled as the list of external operations performed:
argument normalization, directory-name fixup, the beam-major/task-minor
transfer loop, checkpoint-file cleanup, then the optional verification
pass (which reads the post-loop value of `targetdir`). -/
def getdata_alta (ils : String → Int) (date : Nat)
    (task_ids beams : IntOrList) (targetdir tmpdir : String)
    (alta_exception check_with_rsync : Bool) : List Op :=
  let task_ids := task_ids.toList
  let beams := beams.toList
  let tmpdir := if tmpdir = "" then "." else tmpdir
  let targetdir := if targetdir = "" then "." else targetdir
  let tmpdir := if tmpdir.data.getLast? ≠ some '/' then tmpdir ++ "/" else tmpdir
  let targetdir := if targetdir.data.getLast? ≠ some '/' then targetdir ++ "/" else targetdir
  let r := beamLoop ils date alta_exception task_ids beams targetdir
  r.2 ++ [Op.rmCheckpoints tmpdir]
    ++ (if check_with_rsync then
          verifyOps ils date alta_exception tmpdir r.1 beams task_ids
        else [])

end GetdataAlta

namespace GetdataAlta

/-! ### Arithmetic facts about the decimal rendering -/

theorem decDigitsAux_eq (fuel n : Nat) (h : n ≤ fuel) :
    decDigitsAux fuel n = Nat.digits 10 n := by
  induction fuel generalizing n with
  | zero =>
    interval_cases n
    simp [decDigitsAux]
  | succ fuel ih =>
    by_cases hn : n = 0
    · simp [decDigitsAux, hn]
    · rw [decDigitsAux, if_neg hn,
        Nat.digits_def' (b := 10) (by norm_num) (Nat.pos_of_ne_zero hn),
        ih (n / 10) ?hle]
      have : n / 10 < n := Nat.div_lt_self (Nat.pos_of_ne_zero hn) (by norm_num)
      omega

theorem decDigits_eq (n : Nat) : decDigits n = Nat.digits 10 n :=
  decDigitsAux_eq n n le_rfl

theorem digitChar_toNat {d : Nat} (h : d < 10) : (digitChar d).toNat = 48 + d := by
  interval_cases d <;> rfl

theorem digitChar_isDigit {d : Nat} (h : d < 10) : (digitChar d).isDigit = true := by
  interval_cases d <;> rfl

theorem strToNatCore_foldl (l : List Char) (a : Nat) :
    List.foldl (fun x c => x * 10 + (c.toNat - 48)) a l
      = a * 10 ^ l.length + strToNatCore l := by
  induction l generalizing a with
  | nil => simp [strToNatCore]
  | cons c l ih =>
    show List.foldl _ (a * 10 + (c.toNat - 48)) l = _
    rw [ih]
    have hc : strToNatCore (c :: l) = (c.toNat - 48) * 10 ^ l.length + strToNatCore l := by
      show List.foldl _ (0 * 10 + (c.toNat - 48)) l = _
      rw [ih]
      ring_nf
    rw [hc, List.length_cons, pow_succ]
    ring

theorem strToNatCore_append (a b : List Char) :
    strToNatCore (a ++ b) = strToNatCore a * 10 ^ b.length + strToNatCore b := by
  show List.foldl _ 0 (a ++ b) = _
  rw [List.foldl_append, strToNatCore_foldl]
  rfl

theorem strToNatCore_replicate_zero (k : Nat) :
    strToNatCore (List.replicate k '0') = 0 := by
  induction k with
  | zero => rfl
  | succ k ih =>
    rw [List.replicate_succ]
    show List.foldl _ (0 * 10 + ('0'.toNat - 48)) (List.replicate k '0') = 0
    simpa using ih

theorem strToNatCore_reverse_map (l : List Nat) (h : ∀ d ∈ l, d < 10) :
    strToNatCore ((l.map digitChar).reverse) = Nat.ofDigits 10 l := by
  induction l with
  | nil => rfl
  | cons d l ih =>
    rw [List.map_cons, List.reverse_cons, strToNatCore_append]
    have hd : strToNatCore [digitChar d] = d := by
      show 0 * 10 + ((digitChar d).toNat - 48) = d
      rw [digitChar_toNat (h d (List.mem_cons_self d l))]
      omega
    rw [hd, ih (fun x hx => h x (List.mem_cons_of_mem d hx)), Nat.ofDigits_cons]
    simp
    ring

theorem strToNatCore_decReprL (n : Nat) : strToNatCore (decReprL n) = n := by
  by_cases hn : n = 0
  · subst hn; rfl
  · rw [decReprL, if_neg hn, decDigits_eq,
      strToNatCore_reverse_map _ (fun d hd => Nat.digits_lt_base (by norm_num) hd),
      Nat.ofDigits_digits]

theorem decReprL_ne_nil (n : Nat) : decReprL n ≠ [] := by
  by_cases hn : n = 0
  · subst hn; simp [decReprL]
  · rw [decReprL, if_neg hn]
    simp [Nat.digits_ne_nil_iff_ne_zero, decDigits_eq, hn]

theorem decReprL_all_digits (n : Nat) : (decReprL n).all Char.isDigit = true := by
  by_cases hn : n = 0
  · subst hn; rfl
  · rw [decReprL, if_neg hn, decDigits_eq]
    simp only [List.all_eq_true, List.mem_reverse, List.mem_map]
    rintro c ⟨d, hd, rfl⟩
    exact digitChar_isDigit (Nat.digits_lt_base (by norm_num) hd)

theorem strToNatCore_fmt3L (n : Nat) : strToNatCore (fmt3L n) = n := by
  rw [fmt3L, padZerosL, strToNatCore_append, strToNatCore_replicate_zero,
    strToNatCore_decReprL]
  omega

theorem fmt3L_ne_nil (n : Nat) : fmt3L n ≠ [] := by
  rw [fmt3L, padZerosL]
  intro h
  exact decReprL_ne_nil n (List.append_eq_nil.mp h).2

theorem fmt3L_all_digits (n : Nat) : (fmt3L n).all Char.isDigit = true := by
  rw [fmt3L, padZerosL]
  simp only [List.all_append, Bool.and_eq_true, List.all_eq_true]
  constructor
  · intro c hc
    rw [List.eq_of_mem_replicate hc]
    rfl
  · have := decReprL_all_digits n
    simp only [List.all_eq_true] at this
    exact this

theorem decReprL_lt_pow (n : Nat) : n < 10 ^ (decReprL n).length := by
  by_cases hn : n = 0
  · subst hn; simp [decReprL]
  · rw [decReprL, if_neg hn, List.length_reverse, List.length_map, decDigits_eq]
    exact Nat.lt_base_pow_length_digits (by norm_num)

theorem fmt3L_length (n : Nat) :
    (fmt3L n).length = max 3 (decReprL n).length := by
  rw [fmt3L, padZerosL, List.length_append, List.length_replicate]
  omega

theorem fmt3L_lt_pow (n : Nat) : n < 10 ^ (fmt3L n).length := by
  have h1 := decReprL_lt_pow n
  have h2 : (decReprL n).length ≤ (fmt3L n).length := by
    rw [fmt3L_length]; exact le_max_right _ _
  exact lt_of_lt_of_le h1 (Nat.pow_le_pow_right (by norm_num) h2)

theorem fmt3L_length_ge (n : Nat) : 3 ≤ (fmt3L n).length := by
  rw [fmt3L_length]; exact le_max_left _ _

theorem pyInt_concat (d t : Nat) :
    pyInt (decReprL d ++ fmt3L t)
      = some (d * 10 ^ (fmt3L t).length + t) := by
  rw [pyInt, if_pos, strToNatCore_append, strToNatCore_decReprL, strToNatCore_fmt3L]
  rw [Bool.and_eq_true, List.all_append, Bool.and_eq_true]
  refine ⟨?_, decReprL_all_digits d, fmt3L_all_digits t⟩
  simp [List.isEmpty_iff, decReprL_ne_nil d]

/-- The hard-coded exception test `int(str(date)+'%.3d' % task_id) == 190326001`
identifies exactly the key `(190326, 1)` once `date` is past the 181003
cutover. -/
theorem exception_iff {d t : Nat} (hd : 181003 ≤ d) :
    pyInt (decReprL d ++ fmt3L t) = some 190326001 ↔ d = 190326 ∧ t = 1 := by
  rw [pyInt_concat]
  constructor
  · intro h
    have h' : d * 10 ^ (fmt3L t).length + t = 190326001 := Option.some.inj h
    have hL := fmt3L_length_ge t
    have ht := fmt3L_lt_pow t
    rcases Nat.lt_or_ge (fmt3L t).length 4 with h4 | h4
    · have hL3 : (fmt3L t).length = 3 := by omega
      rw [hL3] at h' ht
      norm_num at h' ht
      omega
    · exfalso
      have hp : (10 : ℕ) ^ 4 ≤ 10 ^ (fmt3L t).length :=
        Nat.pow_le_pow_right (by norm_num) h4
      have hm : 181003 * 10 ^ 4 ≤ d * 10 ^ (fmt3L t).length :=
        Nat.mul_le_mul hd hp
      norm_num at hm
      omega
  · rintro ⟨rfl, rfl⟩
    decide

/-! ### Shape facts about the path forms -/

theorem drop_length_add {α : Type} (a b : List α) (k : Nat) :
    (a ++ b).drop (a.length + k) = b.drop k := by
  induction a with
  | nil => simp
  | cons x a ih => simp [Nat.succ_add, ih]

theorem takeRightS_append (n : Nat) (a b : String) (h : n ≤ b.data.length) :
    takeRightS n (a ++ b) = takeRightS n b := by
  rw [takeRightS, takeRightS, String.data_append, List.length_append]
  have hk : a.data.length + b.data.length - n = a.data.length + (b.data.length - n) := by
    omega
  rw [hk, drop_length_add]

theorem pathKind_MS (a b : String) : pathKind (a ++ (b ++ ".MS")) = .Directory := by
  have h3 : (".MS" : String).data.length = 3 := rfl
  have hb : (2 : Nat) ≤ (b ++ ".MS").data.length := by
    rw [String.data_append, List.length_append, h3]; omega
  rw [pathKind, takeRightS_append 2 _ _ hb, takeRightS_append 2 _ _ (by rw [h3]; omega)]
  rfl

theorem pathKind_MStar (a b : String) : pathKind (a ++ (b ++ ".MS.tar")) = .Tarball := by
  have h7 : (".MS.tar" : String).data.length = 7 := rfl
  have hb2 : (2 : Nat) ≤ (b ++ ".MS.tar").data.length := by
    rw [String.data_append, List.length_append, h7]; omega
  have hb3 : (3 : Nat) ≤ (b ++ ".MS.tar").data.length := by
    rw [String.data_append, List.length_append, h7]; omega
  rw [pathKind, takeRightS_append 2 _ _ hb2, takeRightS_append 2 _ _ (by rw [h7]; omega)]
  rw [takeRightS_append 3 _ _ hb3, takeRightS_append 3 _ _ (by rw [h7]; omega)]
  rfl

theorem pathKind_path2 (d t b : Nat) : pathKind (path2 d t b) = .Directory :=
  pathKind_MS _ _

theorem pathKind_path3 (d t b : Nat) : pathKind (path3 d t b) = .Directory :=
  pathKind_MS _ _

theorem pathKind_ingestPath (d t b : Nat) : pathKind (ingestPath d t b) = .Directory :=
  pathKind_MS _ _

theorem pathKind_stagedTarPath (d t b : Nat) : pathKind (stagedTarPath d t b) = .Tarball :=
  pathKind_MStar _ _

theorem pathKind_archivePath (d t b : Nat) : pathKind (archivePath d t b) = .Directory :=
  pathKind_MS _ _

theorem startsWithL_append (p : List Char) :
    ∀ (a b : List Char), p.length ≤ a.length →
      startsWithL p (a ++ b) = startsWithL p a := by
  induction p with
  | nil => intro a b _; rfl
  | cons x p ih =>
    intro a b h
    cases a with
    | nil => simp at h
    | cons y a =>
      rw [List.cons_append, startsWithL, startsWithL,
        ih a b (by simp at h; omega)]

theorem isIngestPath_path2 (d t b : Nat) : isIngestPath (path2 d t b) = false := by
  rw [isIngestPath, path2, String.data_append,
    startsWithL_append _ _ _ (by decide)]
  decide

theorem isIngestPath_path3 (d t b : Nat) : isIngestPath (path3 d t b) = false := by
  rw [isIngestPath, path3, String.data_append,
    startsWithL_append _ _ _ (by decide)]
  decide

theorem isIngestPath_stagedTarPath (d t b : Nat) :
    isIngestPath (stagedTarPath d t b) = false := by
  rw [isIngestPath, stagedTarPath, String.data_append,
    startsWithL_append _ _ _ (by decide)]
  decide

theorem isIngestPath_archivePath (d t b : Nat) :
    isIngestPath (archivePath d t b) = false := by
  rw [isIngestPath, archivePath, String.data_append,
    startsWithL_append _ _ _ (by decide)]
  decide

theorem isIngestPath_ingestPath (d t b : Nat) :
    isIngestPath (ingestPath d t b) = true := by
  rw [isIngestPath, ingestPath, String.data_append,
    startsWithL_append _ _ _ (by decide)]
  decide

/-! ### Behaviour of the resolution policy -/

/-- Shared helper: past the 181003 cutover, with the legacy flag off and a
non-exception key, the branch chain reduces to the probe dispatch. -/
theorem get_alta_dir_post_cutover_eq (d t b : Nat) (rc : Int)
    (hd : 181003 ≤ d) (hx : ¬(d = 190326 ∧ t = 1)) :
    get_alta_dir d t b false rc
      = if rc = 0 then stagedTarPath d t b else archivePath d t b := by
  have h1 : ¬ d < 180216 := by omega
  have h2 : ¬ (d < 181003 ∨ (false : Bool) = true) := by
    simp only [Bool.false_eq_true, or_false]
    omega
  have h3 : ¬ pyInt (decReprL d ++ fmt3L t) = some 190326001 := by
    rw [exception_iff hd]
    exact hx
  rw [get_alta_dir, if_neg h1, if_neg h2, if_neg h3]

/-- C1: with the legacy-format flag off, a date past the 181003 cutover and a
composite key other than the hard-coded exception, resolution returns the
staged tarball path (Tarball kind) when the staged-tier probe exited with
status 0, and the cold-archive directory path (Directory kind) otherwise;
the result is a function of nothing but that exit-status test. -/
theorem resolve_post_cutover (d t b : Nat) (rc : Int)
    (hd : 181003 ≤ d) (hx : ¬(d = 190326 ∧ t = 1)) :
    get_alta_dir d t b false rc
        = (if rc = 0 then stagedTarPath d t b else archivePath d t b) ∧
      pathKind (get_alta_dir d t b false rc)
        = (if rc = 0 then MsKind.Tarball else MsKind.Directory) := by
  have h := get_alta_dir_post_cutover_eq d t b rc hd hx
  refine ⟨h, ?_⟩
  rw [h]
  by_cases hrc : rc = 0
  · rw [if_pos hrc, if_pos hrc, pathKind_stagedTarPath]
  · rw [if_neg hrc, if_neg hrc, pathKind_archivePath]

theorem resolve_post_cutover_witness :
    181003 ≤ 181205 ∧ ¬(181205 = 190326 ∧ 5 = 1) ∧
      (get_alta_dir 181205 5 35 false 0
          = (if (0 : Int) = 0 then stagedTarPath 181205 5 35
             else archivePath 181205 5 35) ∧
        pathKind (get_alta_dir 181205 5 35 false 0)
          = (if (0 : Int) = 0 then MsKind.Tarball else MsKind.Directory)) :=
  ⟨by decide, by decide, resolve_post_cutover 181205 5 35 0 (by decide) (by decide)⟩

/-- C2 (counterexample): for the exception key 190326/001 itself, turning the
legacy-format flag ON routes resolution through the three-digit online branch,
so the ingest-tier path is NOT returned — refuting "for every
forceThreeDigitLegacyFormat value ... for the exception key itself the ingest
path is returned". -/
theorem resolve_ingest_counterexample :
    isIngestPath (get_alta_dir 190326 1 35 true 0) = false ∧
    get_alta_dir 190326 1 35 true 0
      = "/altaZone/home/apertif_main/wcudata/WSRTA190326001/WSRTA190326001_B035.MS" := by
  constructor
  · decide
  · rfl

/-- C2 (amended): resolution returns an ingest-tier path exactly when the
legacy-format flag is off AND the composite key is the hard-coded exception
190326/001; in particular, with the flag off the ingest path is returned for
that key regardless of the probe's exit status, and no other key (nor any
call with the flag on) ever yields the ingest tier. -/
theorem resolve_ingest_iff (d t b : Nat) (exc : Bool) (rc : Int) :
    isIngestPath (get_alta_dir d t b exc rc) = true ↔
      exc = false ∧ d = 190326 ∧ t = 1 := by
  rw [get_alta_dir]
  split_ifs with h1 h2 h3 h4
  · rw [isIngestPath_path2]
    simp only [Bool.false_eq_true, false_iff]
    rintro ⟨-, rfl, -⟩
    omega
  · rw [isIngestPath_path3]
    simp only [Bool.false_eq_true, false_iff]
    rintro ⟨rfl, rfl, -⟩
    rcases h2 with h | h
    · omega
    · exact absurd h (by decide)
  · rw [isIngestPath_ingestPath]
    simp only [true_iff]
    push_neg at h2
    obtain ⟨h2a, h2b⟩ := h2
    have hd : 181003 ≤ d := by omega
    obtain ⟨rfl, rfl⟩ := (exception_iff hd).mp h3
    exact ⟨Bool.not_eq_true _ ▸ (by simpa using h2b), rfl, rfl⟩
  · rw [isIngestPath_stagedTarPath]
    simp only [Bool.false_eq_true, false_iff]
    rintro ⟨rfl, rfl, rfl⟩
    exact h3 (by decide)
  · rw [isIngestPath_archivePath]
    simp only [Bool.false_eq_true, false_iff]
    rintro ⟨rfl, rfl, rfl⟩
    exact h3 (by decide)

/-- C5: before the 180216 naming-width migration, resolution always returns
the two-digit task-id online-directory path, whatever the probe's exit status
and the legacy-format flag. -/
theorem resolve_legacy_two_digit (d t b : Nat) (exc : Bool) (rc : Int)
    (hd : d < 180216) :
    get_alta_dir d t b exc rc = path2 d t b ∧
      pathKind (get_alta_dir d t b exc rc) = MsKind.Directory := by
  rw [get_alta_dir, if_pos hd]
  exact ⟨rfl, pathKind_path2 d t b⟩

theorem resolve_legacy_two_digit_witness :
    180201 < 180216 ∧
      (get_alta_dir 180201 5 35 false 0 = path2 180201 5 35 ∧
        pathKind (get_alta_dir 180201 5 35 false 0) = MsKind.Directory) :=
  ⟨by decide, resolve_legacy_two_digit 180201 5 35 false 0 (by decide)⟩

/-- C6: from the 180216 migration up to the 181003 cutover — or at any later
date with the legacy-format flag set — resolution returns the three-digit
task-id online-directory path, whatever the probe's exit status. -/
theorem resolve_three_digit (d t b : Nat) (exc : Bool) (rc : Int)
    (hd : 180216 ≤ d) (h : d < 181003 ∨ exc = true) :
    get_alta_dir d t b exc rc = path3 d t b ∧
      pathKind (get_alta_dir d t b exc rc) = MsKind.Directory := by
  rw [get_alta_dir, if_neg (by omega), if_pos h]
  exact ⟨rfl, pathKind_path3 d t b⟩

theorem resolve_three_digit_witness :
    180216 ≤ 180321 ∧ (180321 < 181003 ∨ (false : Bool) = true) ∧
      (get_alta_dir 180321 5 35 false 0 = path3 180321 5 35 ∧
        pathKind (get_alta_dir 180321 5 35 false 0) = MsKind.Directory) :=
  ⟨by decide, by decide,
    resolve_three_digit 180321 5 35 false 0 (by decide) (by decide)⟩

/-- C7: every resolution call probes exactly one path — the staged tarball
candidate for its key — before any branching, so the probe happens even on
calls (e.g. pre-cutover dates) whose outcome never consults its result. -/
theorem resolve_probe_trace (w : IlsWorld) (d t b : Nat) (exc : Bool) :
    (get_alta_dir_run w d t b exc).2 = [stagedTarPath d t b] ∧
      (get_alta_dir_run w d t b exc).2.length = 1 := by
  rcases hw : w.retcode (stagedTarPath d t b) with _ | rc <;>
    simp [get_alta_dir_run, hw]

/-- C8 (counterexample): with the archive unreachable the `ils` client runs
and exits nonzero (here status 2) — indistinguishable, at the exit-status
level `subprocess.call` observes, from "object not found" — and resolution
does not raise: it returns the cold-archive fallback path. This refutes
"a probe failure ... raises a ProbeFailureError and does not return any
path". -/
theorem resolve_probe_error_counterexample :
    (get_alta_dir_run ⟨fun _ => some 2⟩ 181205 5 35 false).1 =
      .ok "/altaZone/archive/apertif_main/visibilities_default/181205005/WSRTA181205005_B035.MS" :=
  rfl

/-- C8 (amended): only a failure to launch the probe process propagates as an
error and aborts resolution; when the probe command runs but exits with a
nonzero status — as happens both for "object not found" and for probe-side
errors such as an unreachable archive — resolution does not raise, and for a
post-cutover non-exception key with the flag off it returns the cold-archive
fallback path. -/
theorem resolve_probe_error_masked (w wFail : IlsWorld) (d t b : Nat) (rc : Int)
    (h1 : wFail.retcode (stagedTarPath d t b) = none)
    (h2 : w.retcode (stagedTarPath d t b) = some rc)
    (h3 : rc ≠ 0) (h4 : 181003 ≤ d) (h5 : ¬(d = 190326 ∧ t = 1)) :
    (get_alta_dir_run wFail d t b false).1 = .error .osError ∧
      (get_alta_dir_run w d t b false).1 = .ok (archivePath d t b) := by
  constructor
  · simp [get_alta_dir_run, h1]
  · simp only [get_alta_dir_run, h2]
    rw [get_alta_dir_post_cutover_eq d t b rc h4 h5, if_neg h3]

theorem resolve_probe_error_masked_witness :
    (IlsWorld.mk fun _ => (none : Option Int)).retcode (stagedTarPath 181205 5 35) = none ∧
    (IlsWorld.mk fun _ => (some 2 : Option Int)).retcode (stagedTarPath 181205 5 35) = some 2 ∧
    (2 : Int) ≠ 0 ∧ 181003 ≤ 181205 ∧ ¬(181205 = 190326 ∧ 5 = 1) ∧
    ((get_alta_dir_run (IlsWorld.mk fun _ => (none : Option Int)) 181205 5 35 false).1
        = .error .osError ∧
      (get_alta_dir_run (IlsWorld.mk fun _ => (some 2 : Option Int)) 181205 5 35 false).1
        = .ok (archivePath 181205 5 35)) :=
  ⟨rfl, rfl, by decide, by decide, by decide,
    resolve_probe_error_masked (IlsWorld.mk fun _ => some 2)
      (IlsWorld.mk fun _ => none) 181205 5 35 2 rfl rfl
      (by decide) (by decide) (by decide)⟩

/-! ### Behaviour of the range parser -/

theorem pySplit_ne_nil (sep : Char) (t : List Char) : pySplit sep t ≠ [] := by
  cases t with
  | nil => simp [pySplit]
  | cons c rest =>
    rw [pySplit]
    split_ifs
    · simp
    · cases pySplit sep rest <;> simp

theorem pySplit_of_not_mem {sep : Char} {t : List Char} (h : sep ∉ t) :
    pySplit sep t = [t] := by
  induction t with
  | nil => rfl
  | cons c rest ih =>
    have hc : ¬ c = sep := fun hc => h (hc ▸ List.mem_cons_self c rest)
    have hrest : sep ∉ rest := fun hr => h (List.mem_cons_of_mem c hr)
    rw [pySplit, if_neg hc, ih hrest]

theorem pySplit_length_of_mem {sep : Char} {t : List Char} (h : sep ∈ t) :
    2 ≤ (pySplit sep t).length := by
  induction t with
  | nil => cases h
  | cons c rest ih =>
    rw [pySplit]
    by_cases hc : c = sep
    · rw [if_pos hc, List.length_cons]
      have := pySplit_ne_nil sep rest
      cases hr : pySplit sep rest with
      | nil => exact absurd hr this
      | cons p ps => simp
    · rw [if_neg hc]
      have hrest : sep ∈ rest := by
        rcases List.mem_cons.mp h with h' | h'
        · exact absurd h'.symm hc
        · exact h'
      have := ih hrest
      cases hr : pySplit sep rest with
      | nil => exact absurd hr (pySplit_ne_nil sep rest)
      | cons p ps => rw [hr] at this; simpa using this

theorem pySplit_singleton {sep : Char} {t s : List Char}
    (h : pySplit sep t = [s]) : t = s ∧ sep ∉ t := by
  by_cases hm : sep ∈ t
  · have := pySplit_length_of_mem hm
    rw [h] at this
    simp at this
  · have := pySplit_of_not_mem hm
    rw [h] at this
    exact ⟨(List.cons.inj this).1.symm, hm⟩

theorem mem_of_pySplit_pair {sep : Char} {t b e : List Char}
    (h : pySplit sep t = [b, e]) : sep ∈ t := by
  by_contra hm
  rw [pySplit_of_not_mem hm] at h
  simp at h

theorem pySplit_append_cons {sep : Char} {b : List Char} (e : List Char)
    (hb : sep ∉ b) : pySplit sep (b ++ sep :: e) = b :: pySplit sep e := by
  induction b with
  | nil => simp [pySplit]
  | cons c rest ih =>
    have hc : ¬ c = sep := fun hc => hb (hc ▸ List.mem_cons_self c rest)
    have hrest : sep ∉ rest := fun hr => hb (List.mem_cons_of_mem c hr)
    rw [List.cons_append, pySplit, if_neg hc, ih hrest]

theorem pyInt_isSome {l : List Char} (h : (pyInt l).isSome = true) :
    l ≠ [] ∧ l.all Char.isDigit = true := by
  rw [pyInt] at h
  split_ifs at h with hc
  · rw [Bool.and_eq_true, Bool.not_eq_true'] at hc
    exact ⟨fun hn => by simp [hn] at hc, hc.2⟩
  · simp at h

theorem not_mem_of_all_digits {c : Char} (hc : c.isDigit = false)
    {l : List Char} (h : l.all Char.isDigit = true) : c ∉ l := by
  intro hm
  rw [List.all_eq_true] at h
  rw [h c hm] at hc
  cases hc

theorem tokenVals_single (t : List Char) (hmem : '-' ∉ t) :
    tokenVals t
      = match pyInt t with
        | some n => .ok [n]
        | none => .error (.parseFail ⟨t⟩) := by
  rw [tokenVals, if_neg hmem]

theorem tokenVals_pair (t b e : List Char) (hmem : '-' ∈ t)
    (hs : pySplit '-' t = [b, e]) :
    tokenVals t
      = if strLt e b then .error (.invalidRange ⟨t⟩)
        else
          match pyInt b, pyInt e with
          | some bn, some en => .ok (List.range' bn (en + 1 - bn))
          | _, _ => .error (.parseFail ⟨t⟩) := by
  rw [tokenVals, if_pos hmem, hs]

theorem parseGo_cons_ok (t : List Char) (ts : List (List Char))
    (l : List Nat) (h : tokenVals t = .ok l) :
    parseGo (t :: ts)
      = match parseGo ts with
        | .error e => .error e
        | .ok rest => .ok (l ++ rest) := by
  rw [parseGo, h]

theorem parseGo_cons_err (t : List Char) (ts : List (List Char))
    (e : RangeError) (h : tokenVals t = .error e) :
    parseGo (t :: ts) = .error e := by
  rw [parseGo, h]

theorem tokenVals_of_specTok (t : List Char) (h : specTok t = true) :
    tokenVals t = .ok (specExpand t) := by
  rcases hs : pySplit '-' t with _ | ⟨s, _ | ⟨e, _ | r⟩⟩
  · exact absurd hs (pySplit_ne_nil '-' t)
  · obtain ⟨rfl, hmem⟩ := pySplit_singleton hs
    have h' : (pyInt t).isSome = true := by
      rw [specTok, hs] at h
      exact h
    obtain ⟨n, hn⟩ := Option.isSome_iff_exists.mp h'
    have hexp : specExpand t = [n] := by
      rw [specExpand, hs]
      show [(pyInt t).getD 0] = [n]
      rw [hn]
      rfl
    rw [tokenVals_single t hmem, hn, hexp]
  · have h' : ((pyInt s).isSome && (pyInt e).isSome && !(strLt e s)) = true := by
      rw [specTok, hs] at h
      exact h
    simp only [Bool.and_eq_true, Bool.not_eq_true'] at h'
    obtain ⟨⟨hb, he⟩, hlt⟩ := h'
    obtain ⟨bn, hbn⟩ := Option.isSome_iff_exists.mp hb
    obtain ⟨en, hen⟩ := Option.isSome_iff_exists.mp he
    have hexp : specExpand t = List.range' bn (en + 1 - bn) := by
      rw [specExpand, hs]
      show List.range' ((pyInt s).getD 0) ((pyInt e).getD 0 + 1 - (pyInt s).getD 0) = _
      rw [hbn, hen]
      rfl
    rw [tokenVals_pair t s e (mem_of_pySplit_pair hs) hs, hlt, hbn, hen, hexp]
    rfl
  · rw [specTok, hs] at h
    cases h

theorem parseGo_ok (ts : List (List Char))
    (h : ∀ t ∈ ts, specTok t = true) :
    parseGo ts = .ok (ts.flatMap specExpand) := by
  induction ts with
  | nil => rfl
  | cons t ts ih =>
    rw [parseGo, tokenVals_of_specTok t (h t (List.mem_cons_self t ts)),
      ih (fun x hx => h x (List.mem_cons_of_mem t hx)), List.flatMap_cons]

/-- C3 (amended): on a string of comma-separated tokens, each a bare
non-negative integer or a hyphenated begin-end pair of non-negative integers
whose end is not smaller than its begin under Python string comparison,
`parse_list` returns the concatenation, in left-to-right token order, of each
bare integer as a singleton and each range as the inclusive integer sequence
from begin to end (empty when the numeric end is below the numeric begin). -/
theorem parse_list_concat (spec : String)
    (h : ∀ t ∈ pySplit ',' spec.data, specTok t = true) :
    parse_list spec = .ok ((pySplit ',' spec.data).flatMap specExpand) :=
  parseGo_ok _ h

theorem parse_list_concat_witness :
    (∀ t ∈ pySplit ',' "00-04,07,09-12".data, specTok t = true) ∧
      parse_list "00-04,07,09-12"
        = .ok ((pySplit ',' "00-04,07,09-12".data).flatMap specExpand) :=
  ⟨by decide, parse_list_concat "00-04,07,09-12" (by decide)⟩

/-- C3 (counterexample): the token `"2-10"` is a hyphenated pair of
non-negative integers (2 through 10), so the claim requires the result
`[2,3,4,5,6,7,8,9,10]`; the code instead raises the "end should not be
smaller than begin" error because it compares `"10" < "2"` as strings. -/
theorem parse_list_concat_counterexample :
    parse_list "2-10" = .error (RangeError.invalidRange "2-10") ∧
      parse_list "2-10" ≠ .ok [2, 3, 4, 5, 6, 7, 8, 9, 10] :=
  ⟨rfl, fun h => Except.noConfusion h⟩

/-- C4 (amended): for an input consisting of one hyphenated token built from
two digit strings, `parse_list` fails with the invalid-range error exactly
when the end compares smaller than the begin as Python *strings*
(lexicographic on code points) — not as integers. -/
theorem parse_list_invalid_iff (b e : List Char)
    (hb : (pyInt b).isSome = true) (he : (pyInt e).isSome = true) :
    parse_list ⟨b ++ '-' :: e⟩
        = .error (.invalidRange ⟨b ++ '-' :: e⟩) ↔ strLt e b = true := by
  obtain ⟨hbne, hbdig⟩ := pyInt_isSome hb
  obtain ⟨hene, hedig⟩ := pyInt_isSome he
  have hcb : ',' ∉ b := not_mem_of_all_digits (by decide) hbdig
  have hce : ',' ∉ e := not_mem_of_all_digits (by decide) hedig
  have hdb : '-' ∉ b := not_mem_of_all_digits (by decide) hbdig
  have hde : '-' ∉ e := not_mem_of_all_digits (by decide) hedig
  have hct : ',' ∉ b ++ '-' :: e := by
    intro hm
    rcases List.mem_append.mp hm with hm | hm
    · exact hcb hm
    · rcases List.mem_cons.mp hm with hm | hm
      · cases hm
      · exact hce hm
  have hsplit : pySplit ',' (String.mk (b ++ '-' :: e)).data = [b ++ '-' :: e] :=
    pySplit_of_not_mem hct
  have hdash : pySplit '-' (b ++ '-' :: e) = [b, e] := by
    rw [pySplit_append_cons e hdb, pySplit_of_not_mem hde]
  have hmem : '-' ∈ b ++ '-' :: e :=
    List.mem_append.mpr (Or.inr (List.mem_cons_self '-' e))
  obtain ⟨bn, hbn⟩ := Option.isSome_iff_exists.mp hb
  obtain ⟨en, hen⟩ := Option.isSome_iff_exists.mp he
  rw [parse_list, hsplit]
  by_cases hlt : strLt e b = true
  · have htok : tokenVals (b ++ '-' :: e) = .error (.invalidRange ⟨b ++ '-' :: e⟩) := by
      rw [tokenVals_pair _ b e hmem hdash, if_pos hlt]
    rw [parseGo_cons_err _ _ _ htok]
    simp [hlt]
  · have htok : tokenVals (b ++ '-' :: e) = .ok (List.range' bn (en + 1 - bn)) := by
      rw [tokenVals_pair _ b e hmem hdash, if_neg hlt, hbn, hen]
    rw [parseGo_cons_ok _ _ _ htok,
      show parseGo ([] : List (List Char)) = Except.ok [] from rfl]
    constructor
    · intro hcontra
      exact Except.noConfusion hcontra
    · intro hcontra
      exact absurd hcontra hlt

theorem parse_list_invalid_iff_witness :
    (pyInt ['0', '5']).isSome = true ∧ (pyInt ['0', '4']).isSome = true ∧
      (parse_list ⟨['0', '5'] ++ '-' :: ['0', '4']⟩
          = .error (.invalidRange ⟨['0', '5'] ++ '-' :: ['0', '4']⟩) ↔
        strLt ['0', '4'] ['0', '5'] = true) :=
  ⟨by decide, by decide,
    parse_list_invalid_iff ['0', '5'] ['0', '4'] (by decide) (by decide)⟩

/-- C4 (counterexample): for the token `"9-10"` the integer end (10) is not
smaller than the integer begin (9), so the claim's iff requires the parse to
succeed; the code fails with the invalid-range error because `"10" < "9"`
holds as a string comparison. -/
theorem parse_list_invalid_counterexample :
    parse_list "9-10" = .error (RangeError.invalidRange "9-10") ∧ 9 ≤ 10 :=
  ⟨rfl, by decide⟩

/-! ### Behaviour of the orchestrator -/

/-- C9 (evaluation at the failing input): with two task ids whose resolutions
are both tarballs (staged probe exit status 0 throughout), requested target
directory `"data"`: the first tarball item is renamed to `"data"` as
requested, but the second is renamed to `"dat"` — the
`targetdir = targetdir[:-1]` inside the loop strips one further character per
tarball item — and no rename to the requested `"data"` happens for the second
item. -/
theorem getdata_tar_rename_divergence :
    Op.rename "WSRTA181205005_B035.MS" "data"
        ∈ getdata_alta (fun _ => 0) 181205 (.list [5, 6]) (.list [35])
            "data" "." false false ∧
      Op.rename "WSRTA181205006_B035.MS" "dat"
        ∈ getdata_alta (fun _ => 0) 181205 (.list [5, 6]) (.list [35])
            "data" "." false false ∧
      Op.rename "WSRTA181205006_B035.MS" "data"
        ∉ getdata_alta (fun _ => 0) 181205 (.list [5, 6]) (.list [35])
            "data" "." false false := by
  decide

/-- C10: passing a single int for the task-id argument, for the beams
argument, or for both, behaves identically to passing the corresponding
singleton list — the `isinstance(..., int)` normalization is the only place
the distinction is consulted. -/
theorem getdata_singleton_args (ils : String → Int) (date t b : Nat)
    (ts bs : IntOrList) (targetdir tmpdir : String) (exc chk : Bool) :
    getdata_alta ils date (.int t) bs targetdir tmpdir exc chk
        = getdata_alta ils date (.list [t]) bs targetdir tmpdir exc chk ∧
      getdata_alta ils date ts (.int b) targetdir tmpdir exc chk
        = getdata_alta ils date ts (.list [b]) targetdir tmpdir exc chk ∧
      getdata_alta ils date (.int t) (.int b) targetdir tmpdir exc chk
        = getdata_alta ils date (.list [t]) (.list [b]) targetdir tmpdir exc chk :=
  ⟨rfl, rfl, rfl⟩

end GetdataAlta

namespace GetdataAlta

/-! ### The doctests of the source file, reproduced -/

theorem parse_list_doctest :
    parse_list "00-04,07,09-12" = .ok [0, 1, 2, 3, 4, 7, 9, 10, 11, 12] := rfl

theorem parse_list_doctest_err :
    parse_list "05-04" = .error (.invalidRange "05-04") := rfl

theorem get_alta_dir_doctest1 :
    get_alta_dir 180201 5 35 false 1 =
      "/altaZone/home/apertif_main/wcudata/WSRTA18020105/WSRTA18020105_B035.MS" := by
  decide

theorem get_alta_dir_doctest2 :
    get_alta_dir 180321 5 35 false 1 =
      "/altaZone/home/apertif_main/wcudata/WSRTA180321005/WSRTA180321005_B035.MS" := by
  decide

theorem get_alta_dir_doctest3 :
    get_alta_dir 181205 5 35 false 1 =
      "/altaZone/archive/apertif_main/visibilities_default/181205005/WSRTA181205005_B035.MS" := by
  decide

theorem get_alta_dir_staged_example :
    get_alta_dir 181205 5 35 false 0 =
      "/altaZone/stage/apertif_main/visibilities_default/181205005/WSRTA181205005_B035.MS.tar" ∧
    pathKind (get_alta_dir 181205 5 35 false 0) = .Tarball := by
  constructor <;> decide

theorem get_alta_dir_ingest_example :
    get_alta_dir 190326 1 35 false 1 =
      "/altaZone/ingest/apertif_main/visibilities_default/190326001/WSRTA190326001_B035.MS" := by
  decide

end GetdataAlta
